import Mathlib

/-!
Verification of the `plugin-screeps-rollup` Rollup plugin (`src/index.ts`).

The plugin has four operations:
- `generateSourceMaps` rewrites `.js.map` assets of a Rollup bundle in place;
- `getCodeList` converts a build output directory into a Screeps code mapping;
- `upload` drives the deployment sequence (config resolution, credential and
  branch validation, authenticate, list branches, clone-if-missing, set code);
- the plugin hooks `generateBundle` / `writeBundle` wire these into Rollup.

External collaborators (Node `fs`, `git-rev-sync`, the `screeps-api` client,
JSON parsing) are modelled as an explicit `World` of oracle results; the
network traffic of one run is recorded as a list of `Event`s.  JavaScript
truthiness of optional strings/numbers is modelled explicitly.  The JS string
operations used by the source (`split`, `join`, `toLowerCase`, `endsWith`)
are embedded as structurally recursive functions on character lists so that
every definition evaluates by kernel reduction.
-/

/-- JS `String.prototype.split` with a one-character separator, on character
lists.  The result is always a nonempty list of groups. -/
def jsSplitChar (sep : Char) : List Char → List (List Char)
  | [] => [[]]
  | c :: rest =>
    match jsSplitChar sep rest with
    | [] => [[]]
    | g :: gs => if c == sep then [] :: g :: gs else (c :: g) :: gs

/-- JS `s.split(sep)` for a one-character separator. -/
def jsSplit (s : String) (sep : Char) : List String :=
  (jsSplitChar sep s.data).map String.mk

/-- JS `Array.prototype.join` on character lists. -/
def jsJoinList (sep : List Char) : List (List Char) → List Char
  | [] => []
  | [g] => g
  | g :: g2 :: gs => g ++ sep ++ jsJoinList sep (g2 :: gs)

/-- JS `parts.join(sep)`. -/
def jsJoin (sep : String) (parts : List String) : String :=
  String.mk (jsJoinList sep.data (parts.map String.data))

/-- ASCII lowercasing of one character, as JS `toLowerCase` acts on ASCII. -/
def jsToLowerChar (c : Char) : Char :=
  if 'A' ≤ c && c ≤ 'Z' then Char.ofNat (c.toNat + 32) else c

/-- JS `s.toLowerCase()`, restricted to its ASCII behaviour. -/
def jsToLower (s : String) : String := String.mk (s.data.map jsToLowerChar)

/-- JS `s.endsWith(post)`. -/
def jsEndsWith (s post : String) : Bool :=
  decide (post.data.length ≤ s.data.length) &&
    s.data.drop (s.data.length - post.data.length) == post.data

/-- Truthiness of a JS string: the empty string is falsy. -/
def strTruthy (s : String) : Bool := !s.data.isEmpty

/-- Truthiness of an optional JS string: `undefined` and `""` are falsy. -/
def optStrTruthy : Option String → Bool
  | none => false
  | some s => strTruthy s

/-- Truthiness of an optional JS number: `undefined` and `0` are falsy. -/
def optNatTruthy : Option Nat → Bool
  | none => false
  | some n => n != 0

/-- A byte, modelled as a natural number below 256. -/
abbrev Byte := Nat

/-- One file of the build output directory: its name and raw byte content.
Reading the file as UTF-8 text or as base64 is a function of the bytes. -/
structure DistFile where
  name : String
  bytes : List Byte
deriving DecidableEq, Repr

/-- The base64 alphabet used by Node `Buffer.toString('base64')`. -/
def base64Chars : List Char :=
  "ABCDEFGHIJKLMNOPQRSTUVWXYZabcdefghijklmnopqrstuvwxyz0123456789+/".data

/-- Character of the base64 alphabet at a sextet value. -/
def base64Digit (n : Nat) : Char := base64Chars.getD n 'A'

/-- Standard base64 encoding of a byte list, with `=` padding, as produced by
Node `Buffer.toString('base64')`. -/
def base64EncodeList : List Byte → List Char
  | [] => []
  | [a] => [base64Digit (a / 4), base64Digit (a % 4 * 16), '=', '=']
  | [a, b] => [base64Digit (a / 4), base64Digit (a % 4 * 16 + b / 16),
               base64Digit (b % 16 * 4), '=']
  | a :: b :: c :: rest =>
    base64Digit (a / 4) :: base64Digit (a % 4 * 16 + b / 16) ::
    base64Digit (b % 16 * 4 + c / 64) :: base64Digit (c % 64) ::
    base64EncodeList rest

/-- Base64 encoding of a byte list as a string. -/
def base64Encode (bs : List Byte) : String := String.mk (base64EncodeList bs)

/-- The Unicode replacement character, emitted for malformed UTF-8. -/
def replacementChar : Char := Char.ofNat 0xFFFD

/-- Whether a byte is a UTF-8 continuation byte (`0x80 ≤ b < 0xC0`). -/
def isUtf8Cont (b : Byte) : Bool := decide (0x80 ≤ b) && decide (b < 0xC0)

/-- UTF-8 decoding with replacement characters for malformed sequences.
The `fuel` argument makes the recursion structural; every step consumes at
least one byte, so `fuel = bs.length` (as used by `utf8DecodeList`) never
runs out and the fuel-exhausted branch is unreachable. -/
def utf8DecodeAux : Nat → List Byte → List Char
  | _, [] => []
  | 0, _ :: _ => []
  | fuel + 1, b :: rest =>
    if b < 0x80 then Char.ofNat b :: utf8DecodeAux fuel rest
    else if b < 0xC2 then replacementChar :: utf8DecodeAux fuel rest
    else if b < 0xE0 then
      match rest with
      | [] => [replacementChar]
      | b1 :: rest1 =>
        if isUtf8Cont b1 then
          Char.ofNat ((b - 0xC0) * 64 + (b1 - 0x80)) :: utf8DecodeAux fuel rest1
        else replacementChar :: utf8DecodeAux fuel rest
    else if b < 0xF0 then
      match rest with
      | b1 :: b2 :: rest2 =>
        if isUtf8Cont b1 && isUtf8Cont b2 then
          let cp := (b - 0xE0) * 4096 + (b1 - 0x80) * 64 + (b2 - 0x80)
          (if cp < 0x800 || (0xD800 ≤ cp && cp < 0xE000) then replacementChar
           else Char.ofNat cp) :: utf8DecodeAux fuel rest2
        else replacementChar :: utf8DecodeAux fuel rest
      | _ => [replacementChar]
    else if b < 0xF5 then
      match rest with
      | b1 :: b2 :: b3 :: rest3 =>
        if isUtf8Cont b1 && isUtf8Cont b2 && isUtf8Cont b3 then
          let cp := (b - 0xF0) * 262144 + (b1 - 0x80) * 4096 +
                    (b2 - 0x80) * 64 + (b3 - 0x80)
          (if cp < 0x10000 || 0x110000 ≤ cp then replacementChar
           else Char.ofNat cp) :: utf8DecodeAux fuel rest3
        else replacementChar :: utf8DecodeAux fuel rest
      | _ => [replacementChar]
    else replacementChar :: utf8DecodeAux fuel rest

/-- UTF-8 decoding of a whole byte list, modelling Node
`fs.readFileSync(path, 'utf-8')` on arbitrary bytes. -/
def utf8DecodeList (bs : List Byte) : List Char := utf8DecodeAux bs.length bs

/-- UTF-8 text content of a byte list, as a string. -/
def utf8Decode (bs : List Byte) : String := String.mk (utf8DecodeList bs)

/-- Reading a dist file as UTF-8 text (`fs.readFileSync(filepath, 'utf-8')`). -/
def readFileText (f : DistFile) : String := utf8Decode f.bytes

/-- Reading a dist file as base64 (`fs.readFileSync(filepath).toString('base64')`). -/
def readFileBase64 (f : DistFile) : String := base64Encode f.bytes

/-- One value of the Screeps code list: inline text for a module, or a
base64 binary wrapper (`string | { binary: string }`). -/
inductive CodeEntry where
  | text (s : String)
  | binary (base64 : String)
deriving DecidableEq, Repr

/-- A Screeps code list: a JS object mapping module names to entries,
modelled as an insertion-ordered association list with unique keys. -/
abbrev CodeList := List (String × CodeEntry)

/-- JS object property assignment `m[k] = v`: overwrites in place when the
key exists, otherwise appends the new key at the end. -/
def setKey (m : CodeList) (k : String) (v : CodeEntry) : CodeList :=
  if m.any (fun p => p.1 == k) then
    m.map (fun p => if p.1 == k then (k, v) else p)
  else m ++ [(k, v)]

/-- JS object property lookup `m[k]`. -/
def lookupKey (m : CodeList) (k : String) : Option CodeEntry :=
  match m.find? (fun p => p.1 == k) with
  | some p => some p.2
  | none => none

/-- Processing of one directory entry by `getCodeList`: splits the filename
on `.`, takes the first segment as module name, joins the rest case-folded
as the extension, and stores text for `js`, text under the full filename for
`js.map`, and a base64 binary wrapper otherwise. -/
def getCodeListStep (codeList : CodeList) (file : DistFile) : CodeList :=
  let parts := jsSplit file.name '.'
  let filename := parts.headD ""
  let extension := if parts.length > 1 then
    jsToLower (jsJoin "." parts.tail) else ""
  if extension == "js" then
    setKey codeList filename (CodeEntry.text (readFileText file))
  else if extension == "js.map" then
    setKey codeList file.name (CodeEntry.text (readFileText file))
  else
    setKey codeList filename (CodeEntry.binary (readFileBase64 file))

/-- The `getCodeList` function of `src/index.ts`: reads all files of the
dist directory (given as the directory listing) into a code list. -/
def getCodeList (files : List DistFile) : CodeList :=
  files.foldl getCodeListStep []

/-- Content of a Rollup output asset: a string or a `Uint8Array`. -/
inductive AssetSource where
  | str (s : String)
  | bin (bytes : List Byte)
deriving DecidableEq, Repr

/-- One entry of a Rollup `OutputBundle`: a chunk (with its code) or an
asset (with its source). -/
inductive BundleItem where
  | chunk (code : String)
  | asset (source : AssetSource)
deriving DecidableEq, Repr

/-- A Rollup `OutputBundle`: file names mapped to bundle items. -/
abbrev OutputBundle := List (String × BundleItem)

/-- The `generateSourceMaps` function of `src/index.ts`: for every bundle
entry whose name ends with `.js.map`, which is an asset, and whose source is
a string, wrap the source as `module.exports = <source>;`; every other entry
is unchanged.  The JS function mutates the bundle in place; the model
returns the mutated bundle. -/
def generateSourceMaps (bundle : OutputBundle) : OutputBundle :=
  bundle.map (fun item =>
    match item with
    | (itemName, BundleItem.asset (AssetSource.str s)) =>
      if jsEndsWith itemName ".js.map" then
        (itemName, BundleItem.asset (AssetSource.str ("module.exports = " ++ s ++ ";")))
      else (itemName, BundleItem.asset (AssetSource.str s))
    | other => other)

/-- Server configuration for one Screeps deployment target
(`ScreepsServerConfig` of `src/index.ts`); absent JSON fields are `none`. -/
structure ScreepsServerConfig where
  email : Option String := none
  password : Option String := none
  token : Option String := none
  protocol : Option String := none
  hostname : Option String := none
  port : Option Nat := none
  path : Option String := none
  branch : Option String := none
deriving DecidableEq, Repr

/-- A config map (`ScreepsRollupConfig` of `src/index.ts`): destination
names mapped to server configs, modelled as an association list. -/
abbrev ScreepsRollupConfig := List (String × ScreepsServerConfig)

/-- JS object lookup `options.config[options.destination]`. -/
def lookupDestination (c : ScreepsRollupConfig) (dest : String) :
    Option ScreepsServerConfig :=
  match c.find? (fun p => p.1 == dest) with
  | some p => some p.2
  | none => none

/-- The `config` field of the plugin options: a literal config object or a
file path (`ScreepsRollupConfig | string`). -/
inductive ConfigSource where
  | path (p : String)
  | inline (c : ScreepsRollupConfig)
deriving DecidableEq, Repr

/-- Plugin options (`ScreepsRollupOptions` of `src/index.ts`); absent
fields are `none` / `false`. -/
structure ScreepsRollupOptions where
  config : Option ConfigSource := none
  destination : Option String := none
  allowNoDestination : Bool := false
  dryRun : Bool := false
deriving DecidableEq, Repr

/-- The `DEFAULT_CONFIG_FILE` constant of `src/index.ts`. -/
def DEFAULT_CONFIG_FILE : String := "screeps.config.json"

/-- Truthiness of the `config` option: `undefined` and the empty path
string are falsy; every config object is truthy. -/
def configTruthy : Option ConfigSource → Bool
  | none => false
  | some (ConfigSource.path p) => strTruthy p
  | some (ConfigSource.inline _) => true

/-- The config value after the defaulting statement
`if (!options.config) options.config = DEFAULT_CONFIG_FILE`. -/
def effectiveConfigSource : Option ConfigSource → ConfigSource
  | some (ConfigSource.inline c) => ConfigSource.inline c
  | some (ConfigSource.path p) =>
    if strTruthy p then ConfigSource.path p
    else ConfigSource.path DEFAULT_CONFIG_FILE
  | none => ConfigSource.path DEFAULT_CONFIG_FILE

/-- The options record after the config-defaulting statement performed at
the start of both `screeps` and `upload`. -/
def withDefaultConfig (options : ScreepsRollupOptions) : ScreepsRollupOptions :=
  { options with config := some (effectiveConfigSource options.config) }

/-- The error states thrown by `upload`, one per thrown `Error` site. -/
inductive UploadError where
  | noDestination
  | configFileNotFound (p : String)
  | configParseError
  | destinationNotFound (dest : String)
  | missingCredentials
  | branchDetectionFailed
  | authenticationFailed
  | fetchBranchesFailed
deriving DecidableEq, Repr

/-- Result of one `upload` run: normal return or a thrown error. -/
inductive UploadResult where
  | ok
  | err (e : UploadError)
deriving DecidableEq, Repr

/-- Observable events of one `upload` run, in order: the no-destination
warning, the config file read, the network calls of the `screeps-api`
client, and the final success log. -/
inductive Event where
  | warnNoDestination
  | readConfigFile (p : String)
  | netAuth (email password : Option String)
  | netBranches
  | netCloneBranch (source target : String) (code : CodeList)
  | netSetCode (branch : String) (code : CodeList)
  | logSuccess (branch : String)
deriving DecidableEq, Repr

/-- Whether an event is a network call. -/
def Event.isNet : Event → Bool
  | Event.netAuth _ _ => true
  | Event.netBranches => true
  | Event.netCloneBranch _ _ _ => true
  | Event.netSetCode _ _ => true
  | _ => false

/-- The Screeps server's branch store: branch names mapped to their code.
Its name list is what the branches call returns. -/
abbrev ServerState := List (String × CodeList)

/-- External-world oracles for one `upload` run: the file system, JSON
parsing, git branch detection, and the remote API's fixed answers. -/
structure World where
  /-- Result of `fs.existsSync` on a path. -/
  fileExists : String → Bool
  /-- Result of `JSON.parse(fs.readFileSync(p))`; `none` models a parse
  error being thrown. -/
  parseConfig : String → Option ScreepsRollupConfig
  /-- Result of `git.branch()`; the empty string models a falsy result
  (no branch detectable). -/
  gitBranch : String
  /-- The `ok` field of the `api.auth(email, password)` response. -/
  authOk : Bool
  /-- The `token` field of the `api.auth` response. -/
  authToken : String
  /-- The `ok` field of the `api.raw.user.branches()` response. -/
  branchesOk : Bool
  /-- Directory listing with file contents (`fs.readdirSync` plus reads). -/
  readDir : String → List DistFile

/-- Outcome of one `upload` run: normal return or thrown error, the ordered
event trace, and the final state of the (mutated) options record. -/
structure UploadOutcome where
  result : UploadResult
  events : List Event
  options : ScreepsRollupOptions
deriving DecidableEq, Repr

/-- Result of branch resolution inside `upload`. -/
inductive BranchResolution where
  | ok (branch : String)
  | err (e : UploadError)
deriving DecidableEq, Repr

/-- Branch resolution of `upload` (lines 185–194 of `src/index.ts`): the
literal `"auto"` resolves to the current git branch, failing when that is
falsy; any other value resolves to `config.branch || 'default'`. -/
def resolveBranch (configBranch : Option String) (gitBranch : String) :
    BranchResolution :=
  if configBranch == some "auto" then
    if strTruthy gitBranch then BranchResolution.ok gitBranch
    else BranchResolution.err UploadError.branchDetectionFailed
  else
    BranchResolution.ok
      (if optStrTruthy configBranch then configBranch.getD "" else "default")

/-- The argument record of `new ScreepsAPI({...})` in `upload`, with the
source's defaulting of protocol, hostname, port and path. -/
structure ApiParams where
  email : Option String
  password : Option String
  token : Option String
  protocol : String
  hostname : String
  port : Nat
  path : String
  branch : String
deriving DecidableEq, Repr

/-- Construction of the `ScreepsAPI` argument record (lines 196–205). -/
def mkApiParams (config : ScreepsServerConfig) (branch : String) : ApiParams where
  email := config.email
  password := config.password
  token := config.token
  protocol := if optStrTruthy config.protocol then config.protocol.getD "" else "https"
  hostname := if optStrTruthy config.hostname then config.hostname.getD "" else "screeps.com"
  port := if optNatTruthy config.port then config.port.getD 0 else 21025
  path := if optStrTruthy config.path then config.path.getD "" else "/"
  branch := branch

/-- Continuation of `upload` after the config map is loaded (lines 176–233
of `src/index.ts`): destination lookup, credential validation, branch
resolution, authentication when no token is set, branch listing,
clone-if-missing, and the unconditional set-code call.  `ev0` holds the
events of the config-loading step and `options` the options record as
mutated so far. -/
def uploadResolved (options : ScreepsRollupOptions) (dest : String)
    (distDir : String) (w : World) (srv : ServerState) (ev0 : List Event)
    (cm : ScreepsRollupConfig) : UploadOutcome :=
  match lookupDestination cm dest with
  | none => ⟨UploadResult.err (UploadError.destinationNotFound dest), ev0, options⟩
  | some config =>
    if (!optStrTruthy config.email || !optStrTruthy config.password) &&
        !optStrTruthy config.token then
      ⟨UploadResult.err UploadError.missingCredentials, ev0, options⟩
    else
      match resolveBranch config.branch w.gitBranch with
      | BranchResolution.err e => ⟨UploadResult.err e, ev0, options⟩
      | BranchResolution.ok branch =>
        let api := mkApiParams config branch
        if !optStrTruthy api.token && !w.authOk then
          ⟨UploadResult.err UploadError.authenticationFailed,
           ev0 ++ [Event.netAuth config.email config.password], options⟩
        else
          let ev1 := ev0 ++
            (if !optStrTruthy api.token then
              [Event.netAuth config.email config.password] else []) ++
            [Event.netBranches]
          if !w.branchesOk then
            ⟨UploadResult.err UploadError.fetchBranchesFailed, ev1, options⟩
          else
            let code := getCodeList (w.readDir distDir)
            let branchExists := srv.any (fun x => x.1 == branch)
            let ev2 := if !branchExists then
              ev1 ++ [Event.netCloneBranch "" branch code] else ev1
            ⟨UploadResult.ok,
             ev2 ++ [Event.netSetCode branch code, Event.logSuccess branch],
             options⟩

/-- The `upload` function of `src/index.ts` (lines 152–233): config
defaulting, the no-destination check, config file loading, then the
deployment sequence.  `srv` is the server's branch store, whose name list
is what the branches call returns. -/
def upload (options : ScreepsRollupOptions) (distDir : String) (w : World)
    (srv : ServerState) : UploadOutcome :=
  let options1 := withDefaultConfig options
  if !optStrTruthy options1.destination then
    if options1.allowNoDestination then
      ⟨UploadResult.ok, [Event.warnNoDestination], options1⟩
    else
      ⟨UploadResult.err UploadError.noDestination, [], options1⟩
  else
    let dest := options1.destination.getD ""
    match effectiveConfigSource options.config with
    | ConfigSource.path p =>
      if !w.fileExists p then
        ⟨UploadResult.err (UploadError.configFileNotFound p), [], options1⟩
      else
        match w.parseConfig p with
        | none =>
          ⟨UploadResult.err UploadError.configParseError,
           [Event.readConfigFile p], options1⟩
        | some cm =>
          uploadResolved { options1 with config := some (ConfigSource.inline cm) }
            dest distDir w srv [Event.readConfigFile p] cm
    | ConfigSource.inline cm => uploadResolved options1 dest distDir w srv [] cm

/-- JS `a || b` on optional strings. -/
def jsOrStr (a b : Option String) : Option String :=
  if optStrTruthy a then a else b

/-- Rollup `OutputOptions`, restricted to the fields the plugin reads. -/
structure OutputOptions where
  dir : Option String := none
  file : Option String := none
deriving DecidableEq, Repr

/-- Result of the `writeBundle` hook: the thrown missing-output error, the
dry-run early return, or a completed `upload` run. -/
inductive WriteBundleResult where
  | errMissingOutput
  | skippedUpload
  | uploaded (outcome : UploadOutcome)
deriving DecidableEq, Repr

/-- The `writeBundle` hook of the plugin (lines 264–273 of `src/index.ts`):
computes `outputOptions.dir || outputOptions.file`, throws when that is
falsy, and runs `upload` unless `dryRun` is set. -/
def writeBundle (options : ScreepsRollupOptions) (outputOptions : OutputOptions)
    (w : World) (srv : ServerState) : WriteBundleResult :=
  let distDir := jsOrStr outputOptions.dir outputOptions.file
  if !optStrTruthy distDir then WriteBundleResult.errMissingOutput
  else if !options.dryRun then
    WriteBundleResult.uploaded (upload options (distDir.getD "") w srv)
  else WriteBundleResult.skippedUpload

/-- The options defaulting performed by the plugin factory `screeps` before
it returns the plugin object (lines 254–257 of `src/index.ts`). -/
def screepsPluginOptions (options : ScreepsRollupOptions) : ScreepsRollupOptions :=
  withDefaultConfig options

/-- Effect of one event on the server's branch store, following the spec's
remote-API contract (§6): a clone call creates the target branch holding
the given code; a set-code call stores the code under the branch (creating
it when absent); other events leave the server unchanged. -/
def applyEvent (srv : ServerState) (e : Event) : ServerState :=
  match e with
  | Event.netCloneBranch _ target code => srv ++ [(target, code)]
  | Event.netSetCode branch code =>
    if srv.any (fun x => x.1 == branch) then
      srv.map (fun x => if x.1 == branch then (branch, code) else x)
    else srv ++ [(branch, code)]
  | _ => srv

/-- Effect of a whole event trace on the server's branch store. -/
def applyEvents (srv : ServerState) (evs : List Event) : ServerState :=
  evs.foldl applyEvent srv

/-- The code stored under a branch on the server. -/
def lookupBranchCode (srv : ServerState) (branch : String) : Option CodeList :=
  match srv.find? (fun x => x.1 == branch) with
  | some x => some x.2
  | none => none

/-- Module name of a dist file per the spec's words: the first segment of
the filename split on `.`. -/
def specModuleName (name : String) : String := (jsSplit name '.').headD ""

/-- Extension of a dist file per the spec's words: the remaining segments
joined with `.` and case-folded; empty when there is no `.`. -/
def specExtension (name : String) : String :=
  let parts := jsSplit name '.'
  if parts.length > 1 then jsToLower (jsJoin "." parts.tail) else ""

/-- Key under which a file is stored per the spec's words: the full
filename for `js.map` files, the module name otherwise. -/
def specFileKey (name : String) : String :=
  if specExtension name == "js.map" then name else specModuleName name

/-- Value stored for a file per the spec's words: text content for `js`
and `js.map` files, a base64 binary wrapper otherwise. -/
def specFileValue (f : DistFile) : CodeEntry :=
  if specExtension f.name == "js" || specExtension f.name == "js.map" then
    CodeEntry.text (readFileText f)
  else CodeEntry.binary (readFileBase64 f)

/-- Whether a bundle entry matches C2's words: an asset whose name ends in
`.js.map` and whose content is a string. -/
def mapAssetMatches : String × BundleItem → Bool
  | (name, BundleItem.asset (AssetSource.str _)) => jsEndsWith name ".js.map"
  | _ => false

/-- Wrapping of a bundle entry's string content per C2's words:
`module.exports = ` followed by the content and a terminating `;`. -/
def wrapModuleExports : String × BundleItem → String × BundleItem
  | (name, BundleItem.asset (AssetSource.str s)) =>
    (name, BundleItem.asset (AssetSource.str ("module.exports = " ++ s ++ ";")))
  | other => other

/-- Number of resolvable authentication methods of a server config per
C5's words: a token counts as one, email together with password as one. -/
def authMethodCount (config : ScreepsServerConfig) : Nat :=
  (if optStrTruthy config.token then 1 else 0) +
  (if optStrTruthy config.email && optStrTruthy config.password then 1 else 0)

/-- The config-loading step of `upload` succeeds with config map `cm`,
producing the event prefix `ev0`: either the (defaulted) config option is
already a literal map, or it is a path whose file exists and parses. -/
def configLoads (o : Option ConfigSource) (w : World)
    (cm : ScreepsRollupConfig) (ev0 : List Event) : Prop :=
  (effectiveConfigSource o = ConfigSource.inline cm ∧ ev0 = []) ∨
  (∃ p, effectiveConfigSource o = ConfigSource.path p ∧
    w.fileExists p = true ∧ w.parseConfig p = some cm ∧
    ev0 = [Event.readConfigFile p])

/-- Fixture: a server config authenticating by token, deploying to branch
`main`. -/
def cfgTokenMain : ScreepsServerConfig := { token := some "tok", branch := some "main" }

/-- Fixture: a server config with a token and an email/password pair. -/
def cfgBothMethods : ScreepsServerConfig :=
  { email := some "e", password := some "p", token := some "tok", branch := some "main" }

/-- Fixture: a server config whose configured branch is the empty string. -/
def cfgEmptyBranch : ScreepsServerConfig := { token := some "tok", branch := some "" }

/-- Fixture: a server config requesting `auto` branch resolution. -/
def cfgAutoBranch : ScreepsServerConfig := { token := some "tok", branch := some "auto" }

/-- Fixture: a config map with one destination `main` using `cfgTokenMain`. -/
def cmMain : ScreepsRollupConfig := [("main", cfgTokenMain)]

/-- Fixture: the dist directory listing `[main.js]` with content `hi`. -/
def filesMain : List DistFile := [⟨"main.js", [104, 105]⟩]

/-- Fixture: a world where everything succeeds; the config file parses to
`cmMain`, git reports branch `gitbr`, and the dist directory is `filesMain`. -/
def wAllOk : World where
  fileExists := fun _ => true
  parseConfig := fun _ => some cmMain
  gitBranch := "gitbr"
  authOk := true
  authToken := "atok"
  branchesOk := true
  readDir := fun _ => filesMain

/-- Fixture: the server already holds a branch `main` with empty code. -/
def srvMain : ServerState := [("main", [])]

/-- Fixture: the code list produced from `filesMain`. -/
def codeMain : CodeList := [("main", CodeEntry.text "hi")]

/-- Fixture: a three-file dist directory with pairwise distinct keys. -/
def filesTriple : List DistFile :=
  [⟨"main.js", [104, 105]⟩, ⟨"main.js.map", [104]⟩, ⟨"icon.png", [1, 2, 3]⟩]

/-- Fixture: a server config with neither token nor email/password. -/
def cfgNoCreds : ScreepsServerConfig := { branch := some "main" }

/-- Fixture config maps for the single destination `main`. -/
def cmBoth : ScreepsRollupConfig := [("main", cfgBothMethods)]

/-- Fixture: config map whose entry has an empty-string branch. -/
def cmEmptyBranch : ScreepsRollupConfig := [("main", cfgEmptyBranch)]

/-- Fixture: config map whose entry requests `auto` branch resolution. -/
def cmAuto : ScreepsRollupConfig := [("main", cfgAutoBranch)]

/-- Fixture: config map whose entry has no credentials. -/
def cmNoCreds : ScreepsRollupConfig := [("main", cfgNoCreds)]

/-- Fixture option records targeting destination `main`. -/
def optsMain : ScreepsRollupOptions :=
  { config := some (ConfigSource.inline cmMain), destination := some "main" }

/-- Fixture: options with a token plus email/password config. -/
def optsBoth : ScreepsRollupOptions :=
  { config := some (ConfigSource.inline cmBoth), destination := some "main" }

/-- Fixture: options with an empty-string configured branch. -/
def optsEmptyBranch : ScreepsRollupOptions :=
  { config := some (ConfigSource.inline cmEmptyBranch), destination := some "main" }

/-- Fixture: options requesting `auto` branch resolution. -/
def optsAuto : ScreepsRollupOptions :=
  { config := some (ConfigSource.inline cmAuto), destination := some "main" }

/-- Fixture: options whose destination entry has no credentials. -/
def optsNoCreds : ScreepsRollupOptions :=
  { config := some (ConfigSource.inline cmNoCreds), destination := some "main" }

/-- Fixture: options without a destination but with the skip flag set. -/
def optsNoDest : ScreepsRollupOptions := { allowNoDestination := true }

/-- Fixture: options loading the config from a file path. -/
def optsPathCfg : ScreepsRollupOptions :=
  { config := some (ConfigSource.path "cfg.json"), destination := some "main" }

/-- Fixture: options with the dry-run flag set. -/
def optsDry : ScreepsRollupOptions :=
  { config := some (ConfigSource.inline cmMain), destination := some "main",
    dryRun := true }

/-- Fixture: a world in which git cannot detect a branch. -/
def wNoGit : World := { wAllOk with gitBranch := "" }


theorem getCodeListStep_eq_spec (m : CodeList) (f : DistFile) :
    getCodeListStep m f = setKey m (specFileKey f.name) (specFileValue f) := by
  unfold getCodeListStep specFileKey specFileValue specModuleName specExtension
  simp only []
  split_ifs <;> simp_all

theorem getCodeList_foldl_spec (files : List DistFile) :
    getCodeList files =
      files.foldl (fun m f => setKey m (specFileKey f.name) (specFileValue f)) [] := by
  unfold getCodeList
  congr 1
  funext m f
  exact getCodeListStep_eq_spec m f

/-- C1: for every file of the output directory, the conversion splits the
filename on `.`, takes the first segment as module name and the remaining
segments joined case-folded as the extension, and stores the file's text
content under the module name when the extension is `js`, its text content
under the full filename when it is `js.map`, and otherwise (including the
empty extension of dot-free names) its base64-encoded bytes as a binary
wrapper under the module name. -/
theorem c1_getCodeList_per_file_rule (files : List DistFile) :
    getCodeList files =
      files.foldl (fun m f => setKey m (specFileKey f.name) (specFileValue f)) [] :=
  getCodeList_foldl_spec files

/-- C2: the post-processor maps every bundle (including the empty one)
entrywise; an asset whose name ends in `.js.map` with string content gets
`module.exports = ` prefixed and `;` appended, every other entry is
unchanged.  The function is total, so it never throws. -/
theorem c2_generateSourceMaps_pointwise (bundle : OutputBundle) (i : Nat) :
    (generateSourceMaps bundle).length = bundle.length ∧
    (generateSourceMaps bundle)[i]? = (bundle[i]?).map
      (fun e => if mapAssetMatches e then wrapModuleExports e else e) := by
  constructor
  · simp [generateSourceMaps]
  · rw [generateSourceMaps, List.getElem?_map]
    cases h : bundle[i]? with
    | none => rfl
    | some e =>
      simp only [Option.map_some']
      congr 1
      rcases e with ⟨name, item⟩
      rcases item with code | src
      · simp [mapAssetMatches, wrapModuleExports]
      · rcases src with s | bs
        · by_cases hn : jsEndsWith name ".js.map" <;>
            simp [mapAssetMatches, wrapModuleExports, hn]
        · simp [mapAssetMatches, wrapModuleExports]

theorem setKey_of_fresh (m : CodeList) (k : String) (v : CodeEntry)
    (h : m.any (fun p => p.1 == k) = false) : setKey m k v = m ++ [(k, v)] := by
  simp [setKey, h]

theorem foldl_setKey_fresh (keyf : DistFile → String) (valf : DistFile → CodeEntry) :
    ∀ (files : List DistFile) (m : CodeList),
      (∀ f ∈ files, m.any (fun p => p.1 == keyf f) = false) →
      (files.map keyf).Nodup →
      files.foldl (fun acc f => setKey acc (keyf f) (valf f)) m =
        m ++ files.map (fun f => (keyf f, valf f)) := by
  intro files
  induction files with
  | nil => intro m _ _; simp
  | cons f rest ih =>
    intro m hfresh hnodup
    have hnodup' : (keyf f :: rest.map keyf).Nodup := by simpa using hnodup
    rcases List.nodup_cons.mp hnodup' with ⟨hnotin, hnd⟩
    simp only [List.foldl_cons]
    rw [setKey_of_fresh m (keyf f) (valf f) (hfresh f (by simp))]
    rw [ih (m ++ [(keyf f, valf f)]) ?_ (by simpa using hnd)]
    · simp
    · intro g hg
      have h1 : m.any (fun p => p.1 == keyf g) = false := hfresh g (by simp [hg])
      have h2 : keyf f ≠ keyf g := by
        intro he
        exact hnotin (he ▸ List.mem_map_of_mem keyf hg)
      simp [List.any_append, h1, h2]

theorem lookupKey_map_of_nodup (keyf : DistFile → String) (valf : DistFile → CodeEntry) :
    ∀ (files : List DistFile), (files.map keyf).Nodup →
      ∀ f ∈ files,
        lookupKey (files.map (fun g => (keyf g, valf g))) (keyf f) = some (valf f) := by
  intro files
  induction files with
  | nil => intro _ f hf; cases hf
  | cons g rest ih =>
    intro hnodup f hf
    have hnodup' : (keyf g :: rest.map keyf).Nodup := by simpa using hnodup
    rcases List.nodup_cons.mp hnodup' with ⟨hnotin, hnd⟩
    rcases List.mem_cons.mp hf with rfl | hf'
    · simp [lookupKey, List.find?]
    · have hne : (keyf g == keyf f) = false := by
        rw [beq_eq_false_iff_ne]
        intro he
        exact hnotin (he ▸ List.mem_map_of_mem keyf hf')
      simp only [List.map_cons, lookupKey, List.find?, hne]
      exact ih hnd f hf'

/-- C4 as stated fails: the two-file directory `[main.js, main.png]` maps
both files to the key `main`, so the produced mapping has one entry for
two files; the `main.js` text entry is dropped in favour of the binary
`main.png` entry. -/
theorem c4_counterexample :
    (getCodeList [⟨"main.js", [104]⟩, ⟨"main.png", [1]⟩]).length = 1 ∧
    ([(⟨"main.js", [104]⟩ : DistFile), ⟨"main.png", [1]⟩].length = 2) ∧
    lookupKey (getCodeList [⟨"main.js", [104]⟩, ⟨"main.png", [1]⟩]) "main" =
      some (CodeEntry.binary "AQ==") := by decide

/-- C4 amended: for every output directory whose files have pairwise
distinct keys (module name for js and binary files, full filename for
js.map files), the produced mapping has exactly one entry per file under
that key, no file's entry is dropped, and no key is duplicated. -/
theorem c4_one_entry_per_file (files : List DistFile)
    (hnodup : (files.map (fun f => specFileKey f.name)).Nodup) :
    (getCodeList files).length = files.length ∧
    ((getCodeList files).map Prod.fst).Nodup ∧
    ∀ f ∈ files, lookupKey (getCodeList files) (specFileKey f.name) =
      some (specFileValue f) := by
  have hform : getCodeList files =
      files.map (fun f => (specFileKey f.name, specFileValue f)) := by
    rw [getCodeList_foldl_spec]
    simpa using foldl_setKey_fresh (fun f => specFileKey f.name) specFileValue
      files [] (fun f _ => rfl) hnodup
  refine ⟨by simp [hform], by simpa [hform, List.map_map, Function.comp] using hnodup, ?_⟩
  intro f hf
  rw [hform]
  exact lookupKey_map_of_nodup (fun f => specFileKey f.name) specFileValue files hnodup f hf

/-- Witness for C4's amended theorem at a concrete three-file directory. -/
theorem c4_one_entry_per_file_witness :
    (filesTriple.map (fun f => specFileKey f.name)).Nodup ∧
    (getCodeList filesTriple).length = filesTriple.length ∧
    ((getCodeList filesTriple).map Prod.fst).Nodup ∧
    lookupKey (getCodeList filesTriple) (specFileKey "main.js") =
      some (specFileValue ⟨"main.js", [104, 105]⟩) ∧
    lookupKey (getCodeList filesTriple) (specFileKey "main.js.map") =
      some (specFileValue ⟨"main.js.map", [104]⟩) ∧
    lookupKey (getCodeList filesTriple) (specFileKey "icon.png") =
      some (specFileValue ⟨"icon.png", [1, 2, 3]⟩) :=
  ⟨by decide,
   (c4_one_entry_per_file filesTriple (by decide)).1,
   (c4_one_entry_per_file filesTriple (by decide)).2.1,
   (c4_one_entry_per_file filesTriple (by decide)).2.2 ⟨"main.js", [104, 105]⟩ (by decide),
   (c4_one_entry_per_file filesTriple (by decide)).2.2 ⟨"main.js.map", [104]⟩ (by decide),
   (c4_one_entry_per_file filesTriple (by decide)).2.2 ⟨"icon.png", [1, 2, 3]⟩ (by decide)⟩

theorem uploadResolved_options_eq (options : ScreepsRollupOptions)
    (dest distDir : String) (w : World) (srv : ServerState)
    (ev0 : List Event) (cm : ScreepsRollupConfig) :
    (uploadResolved options dest distDir w srv ev0 cm).options = options := by
  simp only [uploadResolved]
  repeat' split
  all_goals rfl

theorem uploadResolved_success (options : ScreepsRollupOptions)
    (dest distDir : String) (w : World) (srv : ServerState)
    (ev0 : List Event) (cm : ScreepsRollupConfig)
    (config : ScreepsServerConfig) (branch : String)
    (hlook : lookupDestination cm dest = some config)
    (hcred : ((!optStrTruthy config.email || !optStrTruthy config.password) &&
              !optStrTruthy config.token) = false)
    (hbr : resolveBranch config.branch w.gitBranch = BranchResolution.ok branch)
    (hauth : optStrTruthy config.token = true ∨ w.authOk = true)
    (hfetch : w.branchesOk = true) :
    uploadResolved options dest distDir w srv ev0 cm =
      ⟨UploadResult.ok,
       ev0 ++
         (if optStrTruthy config.token then [] else
           [Event.netAuth config.email config.password]) ++
         [Event.netBranches] ++
         (if srv.any (fun x => x.1 == branch) then [] else
           [Event.netCloneBranch "" branch (getCodeList (w.readDir distDir))]) ++
         [Event.netSetCode branch (getCodeList (w.readDir distDir)),
          Event.logSuccess branch],
       options⟩ := by
  cases htok : optStrTruthy config.token with
  | true =>
    cases hex : srv.any (fun x => x.1 == branch) <;>
      simp [uploadResolved, hlook, hcred, hbr, hfetch, mkApiParams, htok, hex]
  | false =>
    have hok : w.authOk = true := by
      rcases hauth with h | h
      · rw [htok] at h; cases h
      · exact h
    have hep : optStrTruthy config.email = true ∧ optStrTruthy config.password = true := by
      rw [htok] at hcred
      simpa using hcred
    cases hex : srv.any (fun x => x.1 == branch) <;>
      simp [uploadResolved, hlook, hcred, hbr, hfetch, mkApiParams, htok, hok, hex,
        hep.1, hep.2]

theorem upload_eq_uploadResolved (options : ScreepsRollupOptions)
    (distDir : String) (w : World) (srv : ServerState) (dest : String)
    (cm : ScreepsRollupConfig) (ev0 : List Event)
    (hdest : options.destination = some dest) (hdt : strTruthy dest = true)
    (hload : configLoads options.config w cm ev0) :
    upload options distDir w srv =
      uploadResolved
        { withDefaultConfig options with config := some (ConfigSource.inline cm) }
        dest distDir w srv ev0 cm := by
  rcases hload with ⟨heff, hev⟩ | ⟨p, heff, hex, hparse, hev⟩ <;> subst hev
  · simp only [upload, withDefaultConfig, hdest, heff, optStrTruthy, hdt,
      Bool.not_true, Option.getD_some]
    simp
  · simp only [upload, withDefaultConfig, hdest, heff, hex, hparse, optStrTruthy, hdt,
      Bool.not_true, Option.getD_some]
    simp

/-- C7: on a run with no destination name supplied, the uploader warns and
returns normally when the skip flag is set — reading no config file and
issuing no network call — and fails with the configuration error when the
skip flag is not set. -/
theorem c7_no_destination (options : ScreepsRollupOptions) (distDir : String)
    (w : World) (srv : ServerState)
    (hdest : optStrTruthy options.destination = false) :
    (options.allowNoDestination = true →
      upload options distDir w srv =
        ⟨UploadResult.ok, [Event.warnNoDestination], withDefaultConfig options⟩ ∧
      (∀ e ∈ (upload options distDir w srv).events, e.isNet = false) ∧
      (∀ p, Event.readConfigFile p ∉ (upload options distDir w srv).events)) ∧
    (options.allowNoDestination = false →
      upload options distDir w srv =
        ⟨UploadResult.err UploadError.noDestination, [], withDefaultConfig options⟩) := by
  constructor
  · intro hallow
    have he : upload options distDir w srv =
        ⟨UploadResult.ok, [Event.warnNoDestination], withDefaultConfig options⟩ := by
      simp [upload, withDefaultConfig, hdest, hallow]
    refine ⟨he, ?_, ?_⟩
    · rw [he]
      intro e hee
      simp only [List.mem_singleton] at hee
      subst hee
      rfl
    · intro p
      rw [he]
      simp [Event.isNet]
  · intro hallow
    simp [upload, withDefaultConfig, hdest, hallow]

/-- Witness for C7 at concrete options without a destination. -/
theorem c7_no_destination_witness :
    upload optsNoDest "dist" wAllOk srvMain =
      ⟨UploadResult.ok, [Event.warnNoDestination], withDefaultConfig optsNoDest⟩ :=
  ((c7_no_destination optsNoDest "dist" wAllOk srvMain (by decide)).1 rfl).1

/-- C8: a run whose destination is absent from the loaded config map fails
with the lookup error and issues no network calls. -/
theorem c8_destination_not_found (options : ScreepsRollupOptions)
    (distDir : String) (w : World) (srv : ServerState) (dest : String)
    (cm : ScreepsRollupConfig) (ev0 : List Event)
    (hdest : options.destination = some dest) (hdt : strTruthy dest = true)
    (hload : configLoads options.config w cm ev0)
    (hlook : lookupDestination cm dest = none) :
    (upload options distDir w srv).result =
      UploadResult.err (UploadError.destinationNotFound dest) ∧
    ∀ e ∈ (upload options distDir w srv).events, e.isNet = false := by
  rw [upload_eq_uploadResolved options distDir w srv dest cm ev0 hdest hdt hload]
  constructor
  · simp [uploadResolved, hlook]
  · rcases hload with ⟨_, hev⟩ | ⟨p, _, _, _, hev⟩ <;> subst hev <;>
      simp [uploadResolved, hlook, Event.isNet]

/-- Witness for C8 at a concrete absent destination. -/
theorem c8_destination_not_found_witness :
    (upload { config := some (ConfigSource.inline cmMain), destination := some "ghost" }
        "dist" wAllOk srvMain).result =
      UploadResult.err (UploadError.destinationNotFound "ghost") :=
  (c8_destination_not_found
    { config := some (ConfigSource.inline cmMain), destination := some "ghost" }
    "dist" wAllOk srvMain "ghost" cmMain []
    rfl (by decide) (Or.inl ⟨rfl, rfl⟩) (by decide)).1

/-- C10: the `writeBundle` hook throws the missing-output error whenever
neither an output directory nor an output file is given — also under
`dryRun`, since the path check precedes the dry-run check — and returns
without any deployment work when a path is present and `dryRun` is set. -/
theorem c10_writeBundle_path_check (options : ScreepsRollupOptions)
    (outputOptions : OutputOptions) (w : World) (srv : ServerState) :
    (optStrTruthy (jsOrStr outputOptions.dir outputOptions.file) = false →
      writeBundle options outputOptions w srv = WriteBundleResult.errMissingOutput) ∧
    (optStrTruthy (jsOrStr outputOptions.dir outputOptions.file) = true →
      options.dryRun = true →
      writeBundle options outputOptions w srv = WriteBundleResult.skippedUpload) := by
  constructor
  · intro h
    simp [writeBundle, h]
  · intro h hdry
    simp [writeBundle, h, hdry]

/-- Witness for C10: with no output path the hook errors even though
`dryRun` is set; with a path present and `dryRun` set it skips the upload. -/
theorem c10_writeBundle_path_check_witness :
    writeBundle optsDry ⟨none, none⟩ wAllOk srvMain =
      WriteBundleResult.errMissingOutput ∧
    writeBundle optsDry ⟨some "dist", none⟩ wAllOk srvMain =
      WriteBundleResult.skippedUpload :=
  ⟨(c10_writeBundle_path_check optsDry ⟨none, none⟩ wAllOk srvMain).1 (by decide),
   (c10_writeBundle_path_check optsDry ⟨some "dist", none⟩ wAllOk srvMain).2
     (by decide) rfl⟩

theorem upload_options_shape (options : ScreepsRollupOptions) (distDir : String)
    (w : World) (srv : ServerState) :
    ∃ c, (upload options distDir w srv).options =
        { withDefaultConfig options with config := c } ∧
      ∀ cm, options.config = some (ConfigSource.inline cm) →
        c = some (ConfigSource.inline cm) := by
  have hinl : ∀ cm, options.config = some (ConfigSource.inline cm) →
      some (effectiveConfigSource options.config) = some (ConfigSource.inline cm) := by
    intro cm hcm
    simp [effectiveConfigSource, hcm]
  cases hdt : optStrTruthy options.destination with
  | false =>
    cases hallow : options.allowNoDestination with
    | true =>
      exact ⟨some (effectiveConfigSource options.config),
        by simp [upload, withDefaultConfig, hdt, hallow], hinl⟩
    | false =>
      exact ⟨some (effectiveConfigSource options.config),
        by simp [upload, withDefaultConfig, hdt, hallow], hinl⟩
  | true =>
    cases heq : effectiveConfigSource options.config with
    | path p =>
      have hnotinl : ∀ cm, options.config = some (ConfigSource.inline cm) → False := by
        intro cm hcm
        rw [hcm] at heq
        simp [effectiveConfigSource] at heq
      cases hex : w.fileExists p with
      | false =>
        refine ⟨some (effectiveConfigSource options.config),
          by simp [upload, withDefaultConfig, hdt, heq, hex], ?_⟩
        intro cm hcm
        exact (hnotinl cm hcm).elim
      | true =>
        cases hparse : w.parseConfig p with
        | none =>
          refine ⟨some (effectiveConfigSource options.config),
            by simp [upload, withDefaultConfig, hdt, heq, hex, hparse], ?_⟩
          intro cm hcm
          exact (hnotinl cm hcm).elim
        | some cm2 =>
          refine ⟨some (ConfigSource.inline cm2),
            by simp [upload, withDefaultConfig, hdt, heq, hex, hparse,
              uploadResolved_options_eq], ?_⟩
          intro cm hcm
          exact (hnotinl cm hcm).elim
    | inline cm2 =>
      exact ⟨some (effectiveConfigSource options.config),
        by simp [upload, withDefaultConfig, hdt, heq, uploadResolved_options_eq], hinl⟩

/-- C9 as stated fails: `upload` mutates the options record, replacing the
path-valued `config` field by the parsed config map. -/
theorem c9_counterexample :
    (upload optsPathCfg "dist" wAllOk srvMain).options.config =
      some (ConfigSource.inline cmMain) ∧
    optsPathCfg.config = some (ConfigSource.path "cfg.json") ∧
    (upload optsPathCfg "dist" wAllOk srvMain).options.config ≠
      optsPathCfg.config := by decide

/-- C9 amended: the destination and the two boolean flags of the options
record are never modified by `upload`; the `config` field may be defaulted
and replaced by the parsed map, but a config map given inline — the loaded
config map — is unchanged for the whole run. -/
theorem c9_options_fields_stable (options : ScreepsRollupOptions)
    (distDir : String) (w : World) (srv : ServerState) :
    (upload options distDir w srv).options.destination = options.destination ∧
    (upload options distDir w srv).options.allowNoDestination =
      options.allowNoDestination ∧
    (upload options distDir w srv).options.dryRun = options.dryRun ∧
    ∀ cm, options.config = some (ConfigSource.inline cm) →
      (upload options distDir w srv).options.config =
        some (ConfigSource.inline cm) := by
  obtain ⟨c, hc, hcm⟩ := upload_options_shape options distDir w srv
  rw [hc]
  exact ⟨rfl, rfl, rfl, fun cm h => hcm cm h⟩

/-- Witness for C9's amended theorem at concrete inline-config options. -/
theorem c9_options_fields_stable_witness :
    (upload optsMain "dist" wAllOk srvMain).options.destination =
      optsMain.destination ∧
    (upload optsMain "dist" wAllOk srvMain).options.allowNoDestination =
      optsMain.allowNoDestination ∧
    (upload optsMain "dist" wAllOk srvMain).options.dryRun = optsMain.dryRun ∧
    (upload optsMain "dist" wAllOk srvMain).options.config =
      some (ConfigSource.inline cmMain) :=
  ⟨(c9_options_fields_stable optsMain "dist" wAllOk srvMain).1,
   (c9_options_fields_stable optsMain "dist" wAllOk srvMain).2.1,
   (c9_options_fields_stable optsMain "dist" wAllOk srvMain).2.2.1,
   (c9_options_fields_stable optsMain "dist" wAllOk srvMain).2.2.2 cmMain rfl⟩

/-- C5 as stated fails: a destination entry with both a token and an
email/password pair has two resolvable authentication methods — not
exactly one — yet deployment proceeds without a credential error. -/
theorem c5_counterexample :
    authMethodCount cfgBothMethods = 2 ∧
    (upload optsBoth "dist" wAllOk srvMain).result = UploadResult.ok ∧
    (upload optsBoth "dist" wAllOk srvMain).result ≠
      UploadResult.err UploadError.missingCredentials := by decide

/-- C5 amended: at least one authentication method must be resolvable (a
token, or both email and password); a destination entry with no resolvable
method fails with the credential error before any network call. -/
theorem c5_missing_credentials (options : ScreepsRollupOptions)
    (distDir : String) (w : World) (srv : ServerState) (dest : String)
    (cm : ScreepsRollupConfig) (config : ScreepsServerConfig) (ev0 : List Event)
    (hdest : options.destination = some dest) (hdt : strTruthy dest = true)
    (hload : configLoads options.config w cm ev0)
    (hlook : lookupDestination cm dest = some config)
    (hcred : authMethodCount config = 0) :
    (upload options distDir w srv).result =
      UploadResult.err UploadError.missingCredentials ∧
    ∀ e ∈ (upload options distDir w srv).events, e.isNet = false := by
  have hc : ((!optStrTruthy config.email || !optStrTruthy config.password) &&
      !optStrTruthy config.token) = true := by
    unfold authMethodCount at hcred
    cases ht : optStrTruthy config.token <;> cases he : optStrTruthy config.email <;>
      cases hp : optStrTruthy config.password <;> simp_all
  rw [upload_eq_uploadResolved options distDir w srv dest cm ev0 hdest hdt hload]
  constructor
  · simp [uploadResolved, hlook, hc]
  · rcases hload with ⟨_, hev⟩ | ⟨p, _, _, _, hev⟩ <;> subst hev <;>
      simp [uploadResolved, hlook, hc, Event.isNet]

/-- Witness for C5's amended theorem at a credential-less entry. -/
theorem c5_missing_credentials_witness :
    (upload optsNoCreds "dist" wAllOk srvMain).result =
      UploadResult.err UploadError.missingCredentials :=
  (c5_missing_credentials optsNoCreds "dist" wAllOk srvMain "main" cmNoCreds
    cfgNoCreds [] rfl (by decide) (Or.inl ⟨rfl, rfl⟩) (by decide) (by decide)).1

/-- C6 as stated fails for the configured branch `""`: a configured value
other than `auto` should be used as given, but the code deploys to
`default` instead of `""`. -/
theorem c6_counterexample :
    cfgEmptyBranch.branch = some "" ∧
    resolveBranch cfgEmptyBranch.branch wAllOk.gitBranch =
      BranchResolution.ok "default" ∧
    (upload optsEmptyBranch "dist" wAllOk srvMain).events =
      [Event.netBranches, Event.netCloneBranch "" "default" codeMain,
       Event.netSetCode "default" codeMain, Event.logSuccess "default"] ∧
    Event.netSetCode "" codeMain ∉
      (upload optsEmptyBranch "dist" wAllOk srvMain).events := by decide

/-- C6 amended: `auto` resolves to the current git branch and fails with
the detection error before any network call when none is detectable; any
other non-empty configured branch is used as given; an omitted or empty
branch resolves to the literal `default`. -/
theorem c6_branch_resolution (options : ScreepsRollupOptions)
    (distDir : String) (w : World) (srv : ServerState) (dest : String)
    (cm : ScreepsRollupConfig) (config : ScreepsServerConfig)
    (ev0 : List Event) (b g : String) :
    (strTruthy g = true →
      resolveBranch (some "auto") g = BranchResolution.ok g) ∧
    (strTruthy g = false →
      resolveBranch (some "auto") g =
        BranchResolution.err UploadError.branchDetectionFailed) ∧
    (b ≠ "auto" → b ≠ "" → resolveBranch (some b) g = BranchResolution.ok b) ∧
    resolveBranch none g = BranchResolution.ok "default" ∧
    resolveBranch (some "") g = BranchResolution.ok "default" ∧
    (options.destination = some dest → strTruthy dest = true →
      configLoads options.config w cm ev0 →
      lookupDestination cm dest = some config →
      ((!optStrTruthy config.email || !optStrTruthy config.password) &&
        !optStrTruthy config.token) = false →
      config.branch = some "auto" → w.gitBranch = "" →
      (upload options distDir w srv).result =
        UploadResult.err UploadError.branchDetectionFailed ∧
      ∀ e ∈ (upload options distDir w srv).events, e.isNet = false) := by
  refine ⟨?_, ?_, ?_, ?_, ?_, ?_⟩
  · intro hg
    simp [resolveBranch, hg]
  · intro hg
    simp [resolveBranch, hg]
  · intro hb1 hb2
    have hbt : strTruthy b = true := by
      cases b with
      | mk l =>
        cases l with
        | nil => exact absurd rfl hb2
        | cons c cs => rfl
    have hbne : (some b == some "auto") = false := by
      simp [hb1]
    simp [resolveBranch, hbne, optStrTruthy, hbt]
  · simp [resolveBranch, optStrTruthy]
  · simp [resolveBranch, optStrTruthy, strTruthy]
  · intro hdest hdt hload hlook hcred hbranch hgit
    have hbr : resolveBranch config.branch w.gitBranch =
        BranchResolution.err UploadError.branchDetectionFailed := by
      simp [resolveBranch, hbranch, hgit, strTruthy]
    rw [upload_eq_uploadResolved options distDir w srv dest cm ev0 hdest hdt hload]
    constructor
    · simp [uploadResolved, hlook, hcred, hbr]
    · rcases hload with ⟨_, hev⟩ | ⟨p, _, _, _, hev⟩ <;> subst hev <;>
        simp [uploadResolved, hlook, hcred, hbr, Event.isNet]

/-- Witness for C6's amended theorem: all resolution cases at concrete
branches, and the detection failure on a concrete `auto` run without git. -/
theorem c6_branch_resolution_witness :
    resolveBranch (some "auto") "gitbr" = BranchResolution.ok "gitbr" ∧
    resolveBranch (some "auto") "" =
      BranchResolution.err UploadError.branchDetectionFailed ∧
    resolveBranch (some "feature") "gitbr" = BranchResolution.ok "feature" ∧
    resolveBranch none "gitbr" = BranchResolution.ok "default" ∧
    resolveBranch (some "") "gitbr" = BranchResolution.ok "default" ∧
    (upload optsAuto "dist" wNoGit srvMain).result =
      UploadResult.err UploadError.branchDetectionFailed := by
  have h1 := c6_branch_resolution optsAuto "dist" wNoGit srvMain "main" cmAuto
    cfgAutoBranch [] "feature" "gitbr"
  have h2 := c6_branch_resolution optsAuto "dist" wNoGit srvMain "main" cmAuto
    cfgAutoBranch [] "feature" ""
  exact ⟨h1.1 (by decide), h2.2.1 (by decide), h1.2.2.1 (by decide) (by decide),
    h1.2.2.2.1, h1.2.2.2.2.1,
    (h1.2.2.2.2.2 rfl (by decide) (Or.inl ⟨rfl, rfl⟩) (by decide) (by decide)
      rfl rfl).1⟩

theorem any_key_map_set (srv : ServerState) (branch : String) (code : CodeList) :
    ((srv.map (fun x => if x.1 == branch then (branch, code) else x)).any
      (fun x => x.1 == branch)) = srv.any (fun x => x.1 == branch) := by
  induction srv with
  | nil => rfl
  | cons a rest ih =>
    simp only [List.map_cons, List.any_cons, ih]
    cases ha : (a.1 == branch) with
    | true => simp
    | false => simp [ha]

theorem map_set_idem (srv : ServerState) (branch : String) (code : CodeList) :
    ((srv.map (fun x => if x.1 == branch then (branch, code) else x)).map
      (fun x => if x.1 == branch then (branch, code) else x)) =
      srv.map (fun x => if x.1 == branch then (branch, code) else x) := by
  induction srv with
  | nil => rfl
  | cons a rest ih =>
    simp only [List.map_cons, ih, List.cons.injEq, and_true]
    cases ha : (a.1 == branch) with
    | true => simp
    | false => simp [ha]

theorem lookup_map_set (srv : ServerState) (branch : String) (code : CodeList)
    (h : srv.any (fun x => x.1 == branch) = true) :
    lookupBranchCode
      (srv.map (fun x => if x.1 == branch then (branch, code) else x)) branch =
      some code := by
  induction srv with
  | nil => cases h
  | cons a rest ih =>
    cases ha : (a.1 == branch) with
    | true =>
      rw [List.map_cons, if_pos ha, lookupBranchCode]
      simp
    | false =>
      have h' : rest.any (fun x => x.1 == branch) = true := by
        rw [List.any_cons, ha] at h
        simpa using h
      have hrest := ih h'
      rw [List.map_cons, if_neg (ne_true_of_eq_false ha)]
      rw [lookupBranchCode] at hrest ⊢
      rw [List.find?_cons_of_neg _ (by simp [ha])]
      exact hrest


theorem any_key_map_set_p (srv : ServerState) (branch : String) (code : CodeList) :
    ((srv.map (fun x => if x.1 = branch then (branch, code) else x)).any
      (fun x => x.1 == branch)) = srv.any (fun x => x.1 == branch) := by
  induction srv with
  | nil => rfl
  | cons a rest ih =>
    simp only [List.map_cons, List.any_cons, ih]
    by_cases ha : a.1 = branch
    · simp [ha]
    · simp [ha]

theorem map_set_comp_idem (srv : ServerState) (branch : String) (code : CodeList) :
    (srv.map ((fun x => if x.1 = branch then (branch, code) else x) ∘
      (fun x => if x.1 = branch then (branch, code) else x))) =
      srv.map (fun x => if x.1 = branch then (branch, code) else x) := by
  induction srv with
  | nil => rfl
  | cons a rest ih =>
    simp only [List.map_cons, ih, List.cons.injEq, and_true, Function.comp]
    by_cases ha : a.1 = branch
    · simp [ha]
    · simp [ha]

/-- C3: on every deployment run that reaches the branch listing with a
successful fetch, the trace is the config read, the optional auth call, the
branches call, a clone call (empty source branch, resolved branch, code
mapping) exactly when the resolved branch is absent from the listed
branches, and then unconditionally a set-code call with the same mapping;
when the branch already exists, a repeated run against the resulting
server state issues no clone call on either run and applies the same final
code mapping. -/
theorem c3_clone_iff_missing_branch (options : ScreepsRollupOptions)
    (distDir : String) (w : World) (srv : ServerState) (dest : String)
    (cm : ScreepsRollupConfig) (config : ScreepsServerConfig)
    (branch : String) (ev0 : List Event)
    (hdest : options.destination = some dest) (hdt : strTruthy dest = true)
    (hload : configLoads options.config w cm ev0)
    (hlook : lookupDestination cm dest = some config)
    (hcred : ((!optStrTruthy config.email || !optStrTruthy config.password) &&
              !optStrTruthy config.token) = false)
    (hbr : resolveBranch config.branch w.gitBranch = BranchResolution.ok branch)
    (hauth : optStrTruthy config.token = true ∨ w.authOk = true)
    (hfetch : w.branchesOk = true) :
    (upload options distDir w srv).events =
      ev0 ++
        (if optStrTruthy config.token then [] else
          [Event.netAuth config.email config.password]) ++
        [Event.netBranches] ++
        (if srv.any (fun x => x.1 == branch) then [] else
          [Event.netCloneBranch "" branch (getCodeList (w.readDir distDir))]) ++
        [Event.netSetCode branch (getCodeList (w.readDir distDir)),
         Event.logSuccess branch] ∧
    (Event.netCloneBranch "" branch (getCodeList (w.readDir distDir)) ∈
        (upload options distDir w srv).events ↔
      srv.any (fun x => x.1 == branch) = false) ∧
    Event.netSetCode branch (getCodeList (w.readDir distDir)) ∈
      (upload options distDir w srv).events ∧
    (srv.any (fun x => x.1 == branch) = true →
      (∀ s t c, Event.netCloneBranch s t c ∉ (upload options distDir w srv).events) ∧
      upload options distDir w
          (applyEvents srv (upload options distDir w srv).events) =
        upload options distDir w srv ∧
      lookupBranchCode (applyEvents srv (upload options distDir w srv).events)
          branch = some (getCodeList (w.readDir distDir)) ∧
      applyEvents (applyEvents srv (upload options distDir w srv).events)
          (upload options distDir w srv).events =
        applyEvents srv (upload options distDir w srv).events) := by
  have hmain := (upload_eq_uploadResolved options distDir w srv dest cm ev0
      hdest hdt hload).trans
    (uploadResolved_success _ dest distDir w srv ev0 cm config branch
      hlook hcred hbr hauth hfetch)
  refine ⟨by rw [hmain], ?_, ?_, ?_⟩
  · rw [hmain]
    rcases hload with ⟨heff, rfl⟩ | ⟨p, heff, hfx, hparse, rfl⟩ <;>
      cases htok : optStrTruthy config.token <;>
      cases hex : srv.any (fun x => x.1 == branch) <;>
      simp [htok, hex]
  · rw [hmain]
    cases htok : optStrTruthy config.token <;>
      cases hex : srv.any (fun x => x.1 == branch) <;>
      simp [htok, hex]
  · intro hex
    have hsrv1 : applyEvents srv (upload options distDir w srv).events =
        srv.map (fun x =>
          if x.1 == branch then (branch, getCodeList (w.readDir distDir)) else x) := by
      rw [hmain]
      rcases hload with ⟨heff, rfl⟩ | ⟨p, heff, hfx, hparse, rfl⟩ <;>
        cases htok : optStrTruthy config.token <;>
        simp [htok, hex, applyEvents, applyEvent]
    have hex1 : ((applyEvents srv (upload options distDir w srv).events).any
        (fun x => x.1 == branch)) = true := by
      rw [hsrv1, any_key_map_set, hex]
    have hmain1 := (upload_eq_uploadResolved options distDir w
        (applyEvents srv (upload options distDir w srv).events) dest cm ev0
        hdest hdt hload).trans
      (uploadResolved_success _ dest distDir w _ ev0 cm config branch
        hlook hcred hbr hauth hfetch)
    refine ⟨?_, ?_, ?_, ?_⟩
    · intro s t c
      rw [hmain]
      rcases hload with ⟨heff, rfl⟩ | ⟨p, heff, hfx, hparse, rfl⟩ <;>
        cases htok : optStrTruthy config.token <;>
        simp [htok, hex]
    · rw [hmain1, hex1, hmain, hex]
    · rw [hsrv1]
      exact lookup_map_set srv branch _ hex
    · rw [hsrv1, hmain]
      rcases hload with ⟨heff, rfl⟩ | ⟨p, heff, hfx, hparse, rfl⟩ <;>
        cases htok : optStrTruthy config.token <;>
        simp [htok, hex, applyEvents, applyEvent, any_key_map_set_p,
          map_set_comp_idem] <;>
        (obtain ⟨x, hxmem, hxkey⟩ := List.any_eq_true.mp hex
         exact ⟨x.1, x.2, by simpa using hxmem,
           by simp [show x.1 = branch by simpa using hxkey]⟩)

/-- Witness for C3 at a token-auth destination whose branch exists: no
clone call, a set-code call, and an idempotent second run. -/
theorem c3_clone_iff_missing_branch_witness :
    (Event.netCloneBranch "" "main" (getCodeList (wAllOk.readDir "dist")) ∈
        (upload optsMain "dist" wAllOk srvMain).events ↔
      srvMain.any (fun x => x.1 == "main") = false) ∧
    Event.netSetCode "main" (getCodeList (wAllOk.readDir "dist")) ∈
      (upload optsMain "dist" wAllOk srvMain).events ∧
    upload optsMain "dist" wAllOk
        (applyEvents srvMain (upload optsMain "dist" wAllOk srvMain).events) =
      upload optsMain "dist" wAllOk srvMain ∧
    lookupBranchCode
        (applyEvents srvMain (upload optsMain "dist" wAllOk srvMain).events)
        "main" = some (getCodeList (wAllOk.readDir "dist")) := by
  have h := c3_clone_iff_missing_branch optsMain "dist" wAllOk srvMain "main"
    cmMain cfgTokenMain "main" [] rfl (by decide) (Or.inl ⟨rfl, rfl⟩)
    (by decide) (by decide) (by decide) (Or.inl (by decide)) rfl
  exact ⟨h.2.1, h.2.2.1, (h.2.2.2 (by decide)).2.1, (h.2.2.2 (by decide)).2.2.1⟩
